import Mathlib

/-!
Shallow embedding of the markdown-studio renderer and preview session
(src/src/extension.ts renderer module, src/src/preview/PreviewPanel.ts),
together with proofs about the href classification, local-path resolution,
fenced-code rendering, HTML escaping and the preview readiness handshake.

Strings are modelled as `List Char`.  Node's `path` module is modelled in
its POSIX build (`path.posix`), the platform of the repository's own test
suite; this choice is noted wherever it matters.
-/

namespace MDStudio

/-- Program strings are modelled as lists of characters. -/
abbrev Str := List Char

/-- Converts a Lean string literal to the embedded string type. -/
def str (s : String) : Str := s.data

/-- Splits `s` at the first occurrence of `c`: `some (before, after)` with
`s = before ++ c :: after` and `c ∉ before`, or `none` when `c ∉ s`.
This models JavaScript `s.indexOf(c)` combined with the two `slice` calls. -/
def breakAt (c : Char) : Str → Option (Str × Str)
  | [] => none
  | a :: rest =>
    if a = c then some ([], rest)
    else
      match breakAt c rest with
      | none => none
      | some p => some (a :: p.1, p.2)

/-- `HrefParts` from the renderer: `{pathPart, query, fragment}`. -/
structure HrefParts where
  pathPart : Str
  query : Str
  fragment : Str
  deriving DecidableEq, Repr

/-- `splitHref` (extension.ts lines 329-339): the fragment is everything after
the first `#`; the query is everything after the first `?` of the remainder;
the path part is what is left. -/
def splitHref (href : Str) : HrefParts :=
  match breakAt '#' href with
  | some p =>
    (match breakAt '?' p.1 with
     | some q => ⟨q.1, q.2, p.2⟩
     | none => ⟨p.1, [], p.2⟩)
  | none =>
    (match breakAt '?' href with
     | some q => ⟨q.1, q.2, []⟩
     | none => ⟨href, [], []⟩)

/-- ASCII letter test, the `[a-z]` class under the `/i` flag. -/
def isAsciiLetter (c : Char) : Bool :=
  ('a' ≤ c && c ≤ 'z') || ('A' ≤ c && c ≤ 'Z')

/-- The `[a-z0-9+.-]` class under the `/i` flag. -/
def isSchemeChar (c : Char) : Bool :=
  isAsciiLetter c || ('0' ≤ c && c ≤ '9') || c == '+' || c == '.' || c == '-'

/-- Matches `[a-z0-9+.-]*:` at the start of the string (the colon is not a
scheme character, so regex backtracking is irrelevant here). -/
def schemeTail : Str → Bool
  | [] => false
  | c :: rest => if c == ':' then true else isSchemeChar c && schemeTail rest

/-- The regex test `/^[a-z][a-z0-9+.-]*:/iu` (function `hasUriScheme` in
PreviewPanel.ts; inlined in `isExternalHref` of extension.ts). -/
def hasUriScheme : Str → Bool
  | [] => false
  | c :: rest => isAsciiLetter c && schemeTail rest

/-- The regex test `/^[a-z]:[/\\]/iu` (`isLikelyWindowsAbsolutePath`). -/
def isLikelyWindowsAbsolutePath : Str → Bool
  | c1 :: c2 :: c3 :: _ => isAsciiLetter c1 && c2 == ':' && (c3 == '/' || c3 == '\\')
  | _ => false

/-- `isExternalHref` of the renderer (extension.ts lines 349-359): any
URI-scheme-like string that is not a Windows drive-letter path. -/
def isExternalHref (value : Str) : Bool :=
  if isLikelyWindowsAbsolutePath value then false
  else hasUriScheme value

/-- ASCII lower-casing of one character, as `String.prototype.toLowerCase`
acts on the ASCII range (the only range the renderer compares against). -/
def lowerChar (c : Char) : Char :=
  if 'A' ≤ c && c ≤ 'Z' then Char.ofNat (c.toNat + 32) else c

/-- ASCII lower-casing of a string. -/
def toLower (s : Str) : Str := s.map lowerChar

/-- The regex test `/^data:/iu` (`isDataUri`). -/
def isDataUri (value : Str) : Bool :=
  toLower (value.take 5) = str "data:"

/-- JavaScript whitespace (`\s`), restricted to its ASCII members, which are
the only ones fence info strings contain. -/
def jsWhitespace (c : Char) : Bool :=
  c == ' ' || c == '\t' || c == '\n' || c == '\r' || c == '\x0b' || c == '\x0c'

/-- `String.prototype.trim` over ASCII whitespace. -/
def jsTrim (s : Str) : Str :=
  ((s.dropWhile jsWhitespace).reverse.dropWhile jsWhitespace).reverse

/-- `s.split(/\s+/u)[0] ?? ""`: the first whitespace-delimited word of a
string with no leading whitespace. -/
def firstWord (s : Str) : Str := s.takeWhile (fun c => !jsWhitespace c)

/-- Drops trailing `/` characters (the trailing-separator skip of Node's
POSIX `extname`/`dirname` scans). -/
def dropTrailingSlashes (p : Str) : Str :=
  (p.reverse.dropWhile (fun c => c == '/')).reverse

/-- The characters after the last `/` of `p`. -/
def lastSegment (p : Str) : Str :=
  (p.reverse.takeWhile (fun c => c != '/')).reverse

/-- Node `path.posix.extname`: the extension of the basename, from its last
dot; empty when the basename has no dot, when its only leading character is
that dot (hidden files such as `.md`), or when the basename is `..`. -/
def extname (p : Str) : Str :=
  let base := lastSegment (dropTrailingSlashes p)
  match breakAt '.' base.reverse with
  | none => []
  | some p2 =>
    if p2.2 = [] then []
    else if base = ['.', '.'] then []
    else '.' :: p2.1.reverse

/-- The `MARKDOWN_EXTENSIONS` set of the renderer. -/
def MARKDOWN_EXTENSIONS : List Str := [str ".md", str ".markdown"]

/-- `isMarkdownPath` (extension.ts lines 341-343). -/
def isMarkdownPath (targetPath : Str) : Bool :=
  MARKDOWN_EXTENSIONS.contains (toLower (extname targetPath))

/-- Node `path.posix.isAbsolute`: the path starts with `/`. -/
def path_isAbsolute (p : Str) : Bool :=
  match p with
  | '/' :: _ => true
  | _ => false

/-- One step of Node's `normalizeString` segment processing: `.` and empty
segments vanish, `..` pops the last real segment (or, above the root when
`allowAboveRoot` is set, accumulates).  The accumulator holds the emitted
segments in reverse order. -/
def normStep (allowAboveRoot : Bool) (acc : List Str) (seg : Str) : List Str :=
  if seg = [] || seg = ['.'] then acc
  else if seg = ['.', '.'] then
    match acc with
    | [] => if allowAboveRoot then [['.', '.']] else []
    | top :: rest => if top = ['.', '.'] then ['.', '.'] :: acc else rest
  else seg :: acc

/-- Joins path segments with `/`. -/
def joinSegs (segs : List Str) : Str := List.intercalate ['/'] segs

/-- Node `path.posix.normalize`. -/
def normalizePosix (p : Str) : Str :=
  if p = [] then ['.']
  else
    let isAbs := path_isAbsolute p
    let trailingSep := p.getLast? = some '/'
    let core := joinSegs (((p.splitOn '/').foldl (normStep !isAbs) []).reverse)
    if core = [] then
      if isAbs then ['/'] else if trailingSep then str "./" else ['.']
    else
      let core2 := if trailingSep then core ++ ['/'] else core
      if isAbs then '/' :: core2 else core2

/-- Node `path.posix.join` of two components. -/
def pathJoin (a b : Str) : Str :=
  if a = [] && b = [] then ['.']
  else if a = [] then normalizePosix b
  else if b = [] then normalizePosix a
  else normalizePosix (a ++ '/' :: b)

/-- Node `path.posix.resolve dir p` for an absolute `dir` (document paths are
absolute file-system paths): the combined path with `.`/`..` folded away and
no segments kept above the root.  A relative `dir` would fall back to the
process working directory, which never happens in the renderer. -/
def pathResolve (dir p : Str) : Str :=
  let combined := if path_isAbsolute p then p else dir ++ '/' :: p
  if path_isAbsolute combined then
    '/' :: joinSegs (((combined.splitOn '/').foldl (normStep false) []).reverse)
  else combined

/-- Node `path.posix.dirname`. -/
def dirnamePosix (p : Str) : Str :=
  if p = [] then ['.']
  else
    let hasRoot := p.head? = some '/'
    let revTail := (p.drop 1).reverse
    let afterSkip := revTail.dropWhile (fun c => c == '/')
    match afterSkip.dropWhile (fun c => c != '/') with
    | [] => if hasRoot then ['/'] else ['.']
    | _ :: others =>
      if hasRoot && others = [] then str "//"
      else p.take (1 + others.length)

/-- The slice of `vscode.Uri` the renderer observes: scheme, path (the
file-system path for `file` URIs), query and fragment. -/
structure Uri where
  scheme : Str
  path : Str
  query : Str
  fragment : Str
  deriving DecidableEq, Repr

/-- `vscode.Uri.file`. -/
def Uri.file (p : Str) : Uri := ⟨str "file", p, [], []⟩

/-- `uri.with({query, fragment})` as used by the resolver: both components
are set, empty strings included. -/
def Uri.withQueryFragment (u : Uri) (q f : Str) : Uri :=
  { u with query := q, fragment := f }

/-- `vscode.Uri.parse`, modelled as far as the renderer observes it: the
scheme is the (non-empty, `/?#`-free) text before the first colon, defaulting
to `file` when absent; the remainder is split into path, query and fragment
with the same first-`#`-then-first-`?` discipline as hrefs. -/
def Uri.parse (value : Str) : Uri :=
  let schemeSplit :=
    match breakAt ':' value with
    | some p => if p.1 ≠ [] && p.1.all (fun c => c ≠ '/' && c ≠ '?' && c ≠ '#') then some p else none
    | none => none
  match schemeSplit with
  | some p =>
    let parts := splitHref p.2
    ⟨p.1, parts.pathPart, parts.query, parts.fragment⟩
  | none =>
    let parts := splitHref value
    ⟨str "file", parts.pathPart, parts.query, parts.fragment⟩

/-- `RendererSettings` (extension.ts lines 99-105). -/
structure RendererSettings where
  autoUpdateDebounceMs : Int
  enableMermaid : Bool
  enableMath : Bool
  enableTaskLists : Bool
  enableFootnotes : Bool
  deriving DecidableEq, Repr

/-- The slice of `RenderContext` (extension.ts lines 107-112) the link and
image rewriting observes: the document's file-system path and URI string,
the owning workspace folder and the first workspace folder (both optional,
as file-system paths), the webview's address translator, and the settings. -/
structure RenderContext where
  docFsPath : Str
  docUriString : Str
  workspaceFolderPath : Option Str
  firstWorkspaceFolderPath : Option Str
  asWebviewUri : Uri → Str
  settings : RendererSettings

/-- The workspace root the resolver falls back on:
`workspaceFolder?.uri.fsPath ?? workspaceFolders?.[0]?.uri.fsPath`, with the
subsequent `if (!workspaceRoot)` truthiness test (an empty-string root also
counts as missing). -/
def effectiveWorkspaceRoot (ctx : RenderContext) : Option Str :=
  match ctx.workspaceFolderPath.orElse (fun _ => ctx.firstWorkspaceFolderPath) with
  | none => none
  | some root => if root = [] then none else some root

/-- The leading-separator strip `pathPart.replace(/^[/\\]+/u, "")`. -/
def stripLeadingSeps (p : Str) : Str :=
  p.dropWhile (fun c => c == '/' || c == '\\')

/-- `resolveLocalFileUri` (extension.ts lines 286-327), over the POSIX build
of Node `path`: absolute paths are returned as given; URI-scheme-like paths
are accepted only with the `file` scheme; separator-leading paths resolve
against the workspace root; everything else resolves against the document's
directory.  Query and fragment are carried over; `none` is resolution
failure. -/
def resolveLocalFileUri (href : Str) (ctx : RenderContext) : Option Uri :=
  let parts := splitHref href
  let pathPart := parts.pathPart
  if pathPart = [] then none
  else if path_isAbsolute pathPart then
    some ((Uri.file pathPart).withQueryFragment parts.query parts.fragment)
  else if isExternalHref pathPart then
    let parsedUri := Uri.parse href
    if parsedUri.scheme = str "file" then some parsedUri else none
  else if pathPart.head? = some '/' || pathPart.head? = some '\\' then
    match effectiveWorkspaceRoot ctx with
    | none => none
    | some root =>
      some ((Uri.file (pathJoin root (stripLeadingSeps pathPart))).withQueryFragment
        parts.query parts.fragment)
  else
    some ((Uri.file (pathResolve (dirnamePosix ctx.docFsPath) pathPart)).withQueryFragment
      parts.query parts.fragment)

/-- `LinkKind`: the closed classification of link hrefs. -/
inductive LinkKind
  | hash
  | external
  | markdown
  | asset
  deriving DecidableEq, Repr

/-- `LinkRewriteResult`: the rewritten href together with its kind. -/
structure LinkRewriteResult where
  href : Str
  kind : LinkKind
  deriving DecidableEq, Repr

/-- `rewriteLinkHref` (extension.ts lines 253-284): empty hrefs and
unresolvable local hrefs stay as authored with kind `asset`; `#`-leading
hrefs are `hash`; URI-scheme-like non-drive hrefs are `external`; local
markdown documents are `markdown` and stay as authored; resolvable local
assets are translated through the webview. -/
def rewriteLinkHref (href : Str) (ctx : RenderContext) : LinkRewriteResult :=
  if href = [] then ⟨href, LinkKind.asset⟩
  else if href.head? = some '#' then ⟨href, LinkKind.hash⟩
  else
    let parts := splitHref href
    if parts.pathPart = [] then ⟨href, LinkKind.asset⟩
    else if isExternalHref parts.pathPart then ⟨href, LinkKind.external⟩
    else if isMarkdownPath parts.pathPart then ⟨href, LinkKind.markdown⟩
    else
      match resolveLocalFileUri href ctx with
      | none => ⟨href, LinkKind.asset⟩
      | some resolvedUri => ⟨ctx.asWebviewUri resolvedUri, LinkKind.asset⟩

/-- `rewriteImageSource` (extension.ts lines 235-251): empty, path-less,
`data:` and URI-scheme-like sources pass through; local sources resolve and
are translated, falling back to the authored text on failure. -/
def rewriteImageSource (source : Str) (ctx : RenderContext) : Str :=
  if source = [] then source
  else
    let parts := splitHref source
    if parts.pathPart = [] || isDataUri parts.pathPart || isExternalHref parts.pathPart then source
    else
      match resolveLocalFileUri source ctx with
      | none => source
      | some resolvedUri => ctx.asWebviewUri resolvedUri

/-- The string stamped into `data-link-kind`. -/
def linkKindAttr : LinkKind → Str
  | LinkKind.hash => str "hash"
  | LinkKind.external => str "external"
  | LinkKind.markdown => str "markdown"
  | LinkKind.asset => str "asset"

/-- The attribute list of a rendered anchor after the `link_open` renderer
rule (extension.ts lines 200-230) has run on a link token whose only
authored attribute is its href: `attrSet` overwrites `href` and appends each
data attribute, `target` and `rel` in source order. -/
def linkOpenAttrs (originalHref : Str) (ctx : RenderContext) : List (Str × Str) :=
  let rewrittenLink := rewriteLinkHref originalHref ctx
  [(str "href", rewrittenLink.href),
   (str "data-original-href", originalHref),
   (str "data-source-doc", ctx.docUriString),
   (str "data-link-kind", linkKindAttr rewrittenLink.kind),
   (str "target", if rewrittenLink.kind = LinkKind.external then str "_blank" else str "_self"),
   (str "rel", str "noopener noreferrer")]

/-- `escapeHtml`'s per-character replacement table; the five characters the
renderer escapes map to their entities and every other character to itself. -/
def escapeHtmlChar (c : Char) : Str :=
  if c = '&' then str "&amp;"
  else if c = '<' then str "&lt;"
  else if c = '>' then str "&gt;"
  else if c = '"' then str "&quot;"
  else if c = '\x27' then str "&#39;"
  else [c]

/-- One global single-character replacement, `value.replace(/c/gu, r)`. -/
def replaceAllChar (c : Char) (r : Str) : Str → Str
  | [] => []
  | a :: rest => (if a = c then r else [a]) ++ replaceAllChar c r rest

/-- `escapeHtml` (extension.ts lines 384-391): the five sequential global
replacements, ampersands first. -/
def escapeHtml (value : Str) : Str :=
  replaceAllChar '\x27' (str "&#39;")
    (replaceAllChar '"' (str "&quot;")
      (replaceAllChar '>' (str "&gt;")
        (replaceAllChar '<' (str "&lt;")
          (replaceAllChar '&' (str "&amp;") value))))

/-- The registry and highlighter of highlight.js, abstract: `getLanguage`
says whether a grammar is registered, `highlight` maps a language and code
to highlighted markup. -/
structure HighlightJs where
  getLanguage : Str → Bool
  highlight : Str → Str → Str

/-- `renderCodeBlock` (extension.ts lines 365-382): highlighted markup in a
language-tagged code element for registered languages, HTML-escaped plain
text in a generic `hljs` code element otherwise, both inside
`pre.code-block`. -/
def renderCodeBlock (hl : HighlightJs) (code language : Str) : Str :=
  let normalizedLanguage := toLower (firstWord (jsTrim language))
  if normalizedLanguage ≠ [] && hl.getLanguage normalizedLanguage then
    str "<pre class=\"code-block\"><code class=\"hljs language-" ++ normalizedLanguage ++
      str "\">" ++ hl.highlight normalizedLanguage code ++ str "</code></pre>"
  else
    str "<pre class=\"code-block\"><code class=\"hljs\">" ++ escapeHtml code ++ str "</code></pre>"

/-- `getFenceLanguage` (extension.ts lines 361-363). -/
def getFenceLanguage (info : Str) : Str :=
  toLower (firstWord (jsTrim info))

/-- markdown-it's stock fence renderer for a configured highlighter whose
results always start with `<pre` (as `renderCodeBlock`'s do): it returns the
highlighter's markup for the fence body and first info word, with a trailing
newline. -/
def defaultFenceRule (hl : HighlightJs) (content info : Str) : Str :=
  renderCodeBlock hl content (firstWord (jsTrim info)) ++ str "\n"

/-- The installed fence renderer rule (extension.ts lines 156-176): a
`mermaid` fence with diagrams enabled becomes a `div.mermaid` holding the
escaped source; everything else falls through to the stock fence rule. -/
def fenceRule (ctx : RenderContext) (hl : HighlightJs) (content info : Str) : Str :=
  let language := getFenceLanguage info
  if ctx.settings.enableMermaid && language = str "mermaid" then
    str "<div class=\"mermaid\">" ++ escapeHtml content ++ str "</div>"
  else
    defaultFenceRule hl content info

/-- Does `needle` occur as a contiguous substring of the haystack? -/
def containsSub (needle : Str) : Str → Bool
  | [] => needle.isPrefixOf ([] : Str)
  | a :: rest => needle.isPrefixOf (a :: rest) || containsSub needle rest

end MDStudio

namespace MDStudio

/-- The render payload posted to the webview (`RenderPayload` of
PreviewPanel.ts, minus its constant `type` tag). -/
structure RenderPayload where
  html : Str
  themeDark : Bool
  title : Str
  deriving DecidableEq, Repr

/-- The preview session state the readiness handshake touches: the `isReady`
flag, the single `pendingRenderPayload` slot (its type allows at most one
pending payload by construction), and, as the observable effect, the ordered
list of payloads handed to `webview.postMessage`. -/
structure SessionState where
  isReady : Bool
  pendingRenderPayload : Option RenderPayload
  posted : List RenderPayload
  deriving DecidableEq, Repr

/-- A fresh session: not ready, nothing pending, nothing posted
(PreviewPanel.ts lines 74-75). -/
def initialSessionState : SessionState := ⟨false, none, []⟩

/-- `PreviewPanel.postRenderPayload` (PreviewPanel.ts lines 166-173): before
readiness the payload overwrites the pending slot; after readiness it is
posted immediately. -/
def postRenderPayload (s : SessionState) (payload : RenderPayload) : SessionState :=
  if !s.isReady then { s with pendingRenderPayload := some payload }
  else { s with posted := s.posted ++ [payload] }

/-- The session events that touch the handshake state: a debounced render
completing (which calls `postRenderPayload`), the webview's `ready` message,
and its `openLink` message (whose handler never touches the handshake
state). -/
inductive SessionEvent
  | renderCompleted (payload : RenderPayload)
  | readyMessage
  | openLinkMessage (href sourceDoc : Str)

/-- One step of `PreviewPanel.handleMessage` / render completion
(PreviewPanel.ts lines 182-202): `ready` sets `isReady` and flushes the
pending payload, if any, to the webview. -/
def sessionStep (s : SessionState) : SessionEvent → SessionState
  | SessionEvent.renderCompleted payload => postRenderPayload s payload
  | SessionEvent.readyMessage =>
    match s.pendingRenderPayload with
    | some pendingPayload =>
      { s with isReady := true, pendingRenderPayload := none,
               posted := s.posted ++ [pendingPayload] }
    | none => { s with isReady := true }
  | SessionEvent.openLinkMessage _ _ => s

/-- Folding a list of session events from a state. -/
def sessionRun (s : SessionState) (events : List SessionEvent) : SessionState :=
  events.foldl sessionStep s

end MDStudio

namespace MDStudio

/-! Concrete contexts used by counterexamples and witnesses. -/

/-- The default renderer settings. -/
def sampleSettings : RendererSettings := ⟨150, true, true, true, true⟩

/-- A webview address translator in the shape the test suite's mock uses. -/
def sampleWebviewUri (u : Uri) : Str :=
  str "vscode-webview://file" ++ u.path ++
    (if u.query = [] then [] else '?' :: u.query) ++
    (if u.fragment = [] then [] else '#' :: u.fragment)

/-- A render context with a known workspace root, matching the test suite's
mock workspace (`/workspace`, document `/workspace/docs/note.md`). -/
def sampleContext : RenderContext :=
  { docFsPath := str "/workspace/docs/note.md"
    docUriString := str "file:///workspace/docs/note.md"
    workspaceFolderPath := some (str "/workspace")
    firstWorkspaceFolderPath := some (str "/workspace")
    asWebviewUri := sampleWebviewUri
    settings := sampleSettings }

/-- The same context with no workspace folder known at all. -/
def noRootContext : RenderContext :=
  { sampleContext with workspaceFolderPath := none, firstWorkspaceFolderPath := none }

/-- The same context with diagrams disabled. -/
def noMermaidContext : RenderContext :=
  { sampleContext with settings := { sampleSettings with enableMermaid := false } }

/-- A highlight.js stand-in that registers no grammar at all. -/
def emptyHighlightJs : HighlightJs :=
  { getLanguage := fun _ => false, highlight := fun _ code => code }

example : rewriteLinkHref (str "./guide.md#intro") sampleContext =
    ⟨str "./guide.md#intro", LinkKind.markdown⟩ := by decide

example : rewriteLinkHref (str "https://example.com/docs?q=1#section") sampleContext =
    ⟨str "https://example.com/docs?q=1#section", LinkKind.external⟩ := by decide

example : rewriteLinkHref (str "#section-1") sampleContext =
    ⟨str "#section-1", LinkKind.hash⟩ := by decide

example : rewriteLinkHref (str "./assets/spec.pdf?download=1#top") sampleContext =
    ⟨str "vscode-webview://file/workspace/docs/assets/spec.pdf?download=1#top",
      LinkKind.asset⟩ := by decide

example : rewriteImageSource (str "./assets/diagram.png?size=2#frag") sampleContext =
    str "vscode-webview://file/workspace/docs/assets/diagram.png?size=2#frag" := by decide

example : rewriteLinkHref (str "file:///a/b.md") sampleContext =
    ⟨str "file:///a/b.md", LinkKind.external⟩ := by decide

example : resolveLocalFileUri (str "/guide.md") sampleContext =
    some (Uri.file (str "/guide.md")) := by decide

example : resolveLocalFileUri (str "\\guide.md") sampleContext =
    some (Uri.file (str "/workspace/guide.md")) := by decide

example : resolveLocalFileUri (str "\\guide.md") noRootContext = none := by decide

example : fenceRule sampleContext emptyHighlightJs (str "graph TD;\nA-->B;\n") (str "mermaid") =
    str "<div class=\"mermaid\">graph TD;\nA--&gt;B;\n</div>" := by decide

example : fenceRule noMermaidContext emptyHighlightJs (str "graph TD;\nA-->B;\n") (str "mermaid") =
    str "<pre class=\"code-block\"><code class=\"hljs\">graph TD;\nA--&gt;B;\n</code></pre>\n" := by
  decide

example : escapeHtml (str "<script>alert(\x27xss\x27)</script>") =
    str "&lt;script&gt;alert(&#39;xss&#39;)&lt;/script&gt;" := by decide

example : containsSub (str "graph TD;") (str "<div class=\"mermaid\">graph TD;\nA--&gt;B;\n</div>") =
    true := by decide

example :
    sessionRun initialSessionState
      [SessionEvent.renderCompleted ⟨str "a", false, str "t"⟩,
       SessionEvent.renderCompleted ⟨str "b", false, str "t"⟩,
       SessionEvent.readyMessage] =
    ⟨true, none, [⟨str "b", false, str "t"⟩]⟩ := by decide

end MDStudio

namespace MDStudio

/-! Helper lemmas about the embedded primitives. -/

/-- The first component of a `breakAt` split (or the whole string when the
character is absent) is the longest prefix free of that character. -/
theorem breakAt_fst (c : Char) (s : Str) :
    (match breakAt c s with | none => s | some p => p.1) =
      s.takeWhile (fun a => a != c) := by
  induction s with
  | nil => simp [breakAt]
  | cons a t ih =>
    by_cases h : a = c
    · subst h
      simp [breakAt]
    · cases hb : breakAt c t with
      | none =>
        rw [hb] at ih
        simp only [breakAt, if_neg h, hb]
        simp [List.takeWhile_cons, bne_iff_ne, h, ← ih]
      | some p =>
        rw [hb] at ih
        simp only [breakAt, if_neg h, hb]
        simp [List.takeWhile_cons, bne_iff_ne, h, ← ih]

/-- A successful `breakAt` split decomposes the string. -/
theorem breakAt_eq_some {c : Char} :
    ∀ {s : Str} {p : Str × Str}, breakAt c s = some p → s = p.1 ++ c :: p.2 := by
  intro s
  induction s with
  | nil => intro p h; simp [breakAt] at h
  | cons a t ih =>
    intro p h
    by_cases hac : a = c
    · subst hac
      simp [breakAt] at h
      subst h
      simp
    · simp only [breakAt, if_neg hac] at h
      cases hb : breakAt c t with
      | none => rw [hb] at h; simp at h
      | some q =>
        rw [hb] at h
        simp at h
        subst h
        simp [ih hb]

/-- A failing `breakAt` split means the character is absent. -/
theorem breakAt_eq_none {c : Char} :
    ∀ {s : Str}, breakAt c s = none → c ∉ s := by
  intro s
  induction s with
  | nil => intro _; simp
  | cons a t ih =>
    intro h
    by_cases hac : a = c
    · subst hac; simp [breakAt] at h
    · simp only [breakAt, if_neg hac] at h
      cases hb : breakAt c t with
      | none =>
        intro hmem
        rcases List.mem_cons.mp hmem with h1 | h1
        · exact hac h1.symm
        · exact ih hb h1
      | some q => rw [hb] at h; simp at h

/-- `breakAt_fst` when the character is absent. -/
theorem breakAt_none_fst {c : Char} {s : Str} (h : breakAt c s = none) :
    s.takeWhile (fun a => a != c) = s := by
  have h1 := breakAt_fst c s
  rw [h] at h1
  exact h1.symm

/-- `breakAt_fst` when the character is found. -/
theorem breakAt_some_fst {c : Char} {s : Str} {p : Str × Str}
    (h : breakAt c s = some p) : p.1 = s.takeWhile (fun a => a != c) := by
  have h1 := breakAt_fst c s
  rw [h] at h1
  exact h1

/-- The path part of a split href is its longest prefix free of `#` and `?`. -/
theorem splitHref_pathPart (href : Str) :
    (splitHref href).pathPart =
      (href.takeWhile (fun a => a != '#')).takeWhile (fun a => a != '?') := by
  cases hb : breakAt '#' href with
  | none =>
    rw [breakAt_none_fst hb]
    cases hq : breakAt '?' href with
    | none =>
      rw [breakAt_none_fst hq]
      simp [splitHref, hb, hq]
    | some q =>
      rw [← breakAt_some_fst hq]
      simp [splitHref, hb, hq]
  | some p =>
    rw [← breakAt_some_fst hb]
    cases hq : breakAt '?' p.1 with
    | none =>
      rw [breakAt_none_fst hq]
      simp [splitHref, hb, hq]
    | some q =>
      rw [← breakAt_some_fst hq]
      simp [splitHref, hb, hq]

/-- An empty href has an empty path part. -/
theorem splitHref_pathPart_nil : (splitHref ([] : Str)).pathPart = [] := by decide

/-- A `#`-leading href has an empty path part. -/
theorem splitHref_pathPart_hash {href : Str} (h : href.head? = some '#') :
    (splitHref href).pathPart = [] := by
  cases href with
  | nil => simp at h
  | cons a t =>
    simp at h
    subst h
    rw [splitHref_pathPart]
    simp

/-- A non-empty path part makes the href non-empty and not `#`-leading. -/
theorem pathPart_ne_nil_facts {href : Str} (h : (splitHref href).pathPart ≠ []) :
    href ≠ [] ∧ href.head? ≠ some '#' := by
  constructor
  · intro hn; subst hn; exact h splitHref_pathPart_nil
  · intro hh; exact h (splitHref_pathPart_hash hh)

/-- `hasUriScheme` forces a non-empty string. -/
theorem hasUriScheme_ne_nil {s : Str} (h : hasUriScheme s = true) : s ≠ [] := by
  intro hn; subst hn; simp [hasUriScheme] at h

/-- `isMarkdownPath` fails on the empty string. -/
theorem isMarkdownPath_nil : isMarkdownPath ([] : Str) = false := by decide

/-- `replaceAllChar` distributes over concatenation. -/
theorem replaceAllChar_append (c : Char) (r : Str) :
    ∀ x y : Str, replaceAllChar c r (x ++ y) =
      replaceAllChar c r x ++ replaceAllChar c r y := by
  intro x y
  induction x with
  | nil => simp [replaceAllChar]
  | cons a t ih => simp [replaceAllChar, ih]

/-- `escapeHtml` processes one character at a time. -/
theorem escapeHtml_cons (a : Char) (t : Str) :
    escapeHtml (a :: t) = escapeHtmlChar a ++ escapeHtml t := by
  by_cases h1 : a = '&'
  · subst h1; simp [escapeHtml, escapeHtmlChar, replaceAllChar, replaceAllChar_append]; rfl
  by_cases h2 : a = '<'
  · subst h2; simp [escapeHtml, escapeHtmlChar, replaceAllChar, replaceAllChar_append]; rfl
  by_cases h3 : a = '>'
  · subst h3; simp [escapeHtml, escapeHtmlChar, replaceAllChar, replaceAllChar_append]; rfl
  by_cases h4 : a = '"'
  · subst h4; simp [escapeHtml, escapeHtmlChar, replaceAllChar, replaceAllChar_append]; rfl
  by_cases h5 : a = '\x27'
  · subst h5; simp [escapeHtml, escapeHtmlChar, replaceAllChar, replaceAllChar_append]
  · simp [escapeHtml, escapeHtmlChar, replaceAllChar, replaceAllChar_append,
      h1, h2, h3, h4, h5]

/-- The renderer's sequential escaping equals a single pass over the string
with the per-character table. -/
theorem escapeHtml_eq_flatMap (s : Str) :
    escapeHtml s = s.flatMap escapeHtmlChar := by
  induction s with
  | nil => rfl
  | cons a t ih => rw [escapeHtml_cons, List.flatMap_cons, ih]

/-- No raw `<` survives `escapeHtml`. -/
theorem escapeHtml_no_lt (s : Str) : '<' ∉ escapeHtml s := by
  rw [escapeHtml_eq_flatMap]
  intro hmem
  rcases List.mem_flatMap.mp hmem with ⟨a, _, hin⟩
  by_cases h1 : a = '&'
  · subst h1; revert hin; decide
  by_cases h2 : a = '<'
  · subst h2; revert hin; decide
  by_cases h3 : a = '>'
  · subst h3; revert hin; decide
  by_cases h4 : a = '"'
  · subst h4; revert hin; decide
  by_cases h5 : a = '\x27'
  · subst h5; revert hin; decide
  · simp [escapeHtmlChar, h1, h2, h3, h4, h5] at hin
    exact h2 hin.symm

/-- Characters of a first word are never whitespace. -/
theorem firstWord_no_ws {s : Str} {c : Char} (h : c ∈ firstWord s) :
    jsWhitespace c = false := by
  have := List.mem_takeWhile_imp h
  simpa using this

/-- Trimming a whitespace-free string is the identity. -/
theorem jsTrim_of_no_ws {w : Str} (h : ∀ c ∈ w, jsWhitespace c = false) :
    jsTrim w = w := by
  unfold jsTrim
  have h1 : w.dropWhile jsWhitespace = w := by
    cases w with
    | nil => simp
    | cons a t =>
      rw [List.dropWhile_cons]
      simp [h a (by simp)]
  rw [h1]
  have h2 : w.reverse.dropWhile jsWhitespace = w.reverse := by
    cases hw : w.reverse with
    | nil => simp
    | cons a t =>
      rw [List.dropWhile_cons]
      have ha : a ∈ w := by
        rw [← List.mem_reverse, hw]; simp
      simp [h a ha]
  rw [h2, List.reverse_reverse]

/-- Taking the first word of a whitespace-free string is the identity. -/
theorem firstWord_of_no_ws {w : Str} (h : ∀ c ∈ w, jsWhitespace c = false) :
    firstWord w = w := by
  unfold firstWord
  rw [List.takeWhile_eq_self_iff]
  intro c hc
  simp [h c hc]

/-- Re-normalizing an already extracted fence language word is a no-op:
markdown-it hands `renderCodeBlock` the first info word, and the second
trim-and-split inside `renderCodeBlock` leaves it unchanged. -/
theorem firstWord_jsTrim_idem (s : Str) :
    firstWord (jsTrim (firstWord (jsTrim s))) = firstWord (jsTrim s) := by
  have hw : ∀ c ∈ firstWord (jsTrim s), jsWhitespace c = false := fun c hc =>
    firstWord_no_ws hc
  rw [jsTrim_of_no_ws hw, firstWord_of_no_ws hw]

/-- An external verdict decomposes into its two regex tests. -/
theorem isExternalHref_true_elim {s : Str} (h : isExternalHref s = true) :
    isLikelyWindowsAbsolutePath s = false ∧ hasUriScheme s = true := by
  unfold isExternalHref at h
  by_cases hw : isLikelyWindowsAbsolutePath s = true
  · rw [if_pos hw] at h; exact absurd h (by simp)
  · rw [if_neg hw] at h
    exact ⟨by simpa using hw, h⟩

/-- A drive-letter path is never external. -/
theorem isExternalHref_of_winAbs {s : Str}
    (h : isLikelyWindowsAbsolutePath s = true) : isExternalHref s = false := by
  simp [isExternalHref, h]

/-- A scheme-like non-drive path is external. -/
theorem isExternalHref_of_scheme {s : Str}
    (h1 : hasUriScheme s = true) (h2 : isLikelyWindowsAbsolutePath s = false) :
    isExternalHref s = true := by
  simp [isExternalHref, h1, h2]

/-- A letter followed by a colon always passes the scheme regex. -/
theorem hasUriScheme_letter_colon {c : Char} (h : isAsciiLetter c = true)
    (rest : Str) : hasUriScheme (c :: ':' :: rest) = true := by
  simp [hasUriScheme, schemeTail, h]

/-- ASCII letters differ from non-letter characters. -/
theorem isAsciiLetter_bne {c d : Char} (h : isAsciiLetter c = true)
    (hd : isAsciiLetter d = false) : (c != d) = true := by
  rw [bne_iff_ne]
  intro he
  subst he
  simp [h] at hd

/-- `isMarkdownPath` forces a non-empty string. -/
theorem isMarkdownPath_ne_nil {s : Str} (h : isMarkdownPath s = true) :
    s ≠ [] := by
  intro hn; subst hn; exact absurd h (by decide)

/-- Extending an href by a classifiable head character extends its path
part. -/
theorem splitHref_pathPart_cons {a : Char} (ha1 : (a != '#') = true)
    (ha2 : (a != '?') = true) (t : Str) :
    (splitHref (a :: t)).pathPart = a :: (splitHref t).pathPart := by
  rw [splitHref_pathPart, splitHref_pathPart]
  simp [List.takeWhile_cons, ha1, ha2]

/-- When the renderer's external test passes on the path part, the link is
rewritten to kind `external` with the authored href kept. -/
theorem rewriteLinkHref_external {href : Str} {ctx : RenderContext}
    (h : isExternalHref (splitHref href).pathPart = true) :
    rewriteLinkHref href ctx = ⟨href, LinkKind.external⟩ := by
  have hp : (splitHref href).pathPart ≠ [] :=
    hasUriScheme_ne_nil (isExternalHref_true_elim h).2
  obtain ⟨hne, hhash⟩ := pathPart_ne_nil_facts hp
  simp [rewriteLinkHref, hne, hhash, hp, h]

/-- When the external test fails on the path part, the link's kind is never
`external`. -/
theorem rewriteLinkHref_not_external {href : Str} {ctx : RenderContext}
    (hext : isExternalHref (splitHref href).pathPart = false) :
    (rewriteLinkHref href ctx).kind ≠ LinkKind.external := by
  unfold rewriteLinkHref
  by_cases h0 : href = []
  · simp [h0]
  by_cases h1 : href.head? = some '#'
  · simp [h0, h1]
  by_cases h2 : (splitHref href).pathPart = []
  · simp [h0, h1, h2]
  · simp only [if_neg h0, if_neg h1]
    simp only [if_neg h2, hext]
    simp only [Bool.false_eq_true, if_false]
    by_cases h3 : isMarkdownPath (splitHref href).pathPart = true
    · simp [h3]
    · simp only [h3, Bool.false_eq_true, if_false]
      cases resolveLocalFileUri href ctx <;> simp

/-- A local markdown path is rewritten to kind `markdown` with the authored
href kept. -/
theorem rewriteLinkHref_markdown {href : Str} {ctx : RenderContext}
    (hext : isExternalHref (splitHref href).pathPart = false)
    (hmd : isMarkdownPath (splitHref href).pathPart = true) :
    rewriteLinkHref href ctx = ⟨href, LinkKind.markdown⟩ := by
  have hp : (splitHref href).pathPart ≠ [] := isMarkdownPath_ne_nil hmd
  obtain ⟨hne, hhash⟩ := pathPart_ne_nil_facts hp
  simp [rewriteLinkHref, hne, hhash, hp, hext, hmd]

/-- The `file:` scheme prefix passes the renderer's external test. -/
theorem isExternalHref_file_prefix (rest : Str) :
    isExternalHref ('f' :: 'i' :: 'l' :: 'e' :: ':' :: rest) = true := by
  have hw : isLikelyWindowsAbsolutePath ('f' :: 'i' :: 'l' :: 'e' :: ':' :: rest) = false := by
    show (isAsciiLetter 'f' && ('i' == ':') && ('l' == '/' || 'l' == '\\')) = false
    decide
  apply isExternalHref_of_scheme _ hw
  show (isAsciiLetter 'f' && schemeTail ('i' :: 'l' :: 'e' :: ':' :: rest)) = true
  have hi : ('i' == ':') = false := by decide
  have hl : ('l' == ':') = false := by decide
  have he : ('e' == ':') = false := by decide
  have hci : isSchemeChar 'i' = true := by decide
  have hcl : isSchemeChar 'l' = true := by decide
  have hce : isSchemeChar 'e' = true := by decide
  have hf : isAsciiLetter 'f' = true := by decide
  simp [schemeTail, hi, hl, he, hci, hcl, hce, hf]

/-- A split path part is a prefix of the href. -/
theorem splitHref_pathPart_prefix (href : Str) :
    (splitHref href).pathPart <+: href := by
  rw [splitHref_pathPart]
  exact (List.takeWhile_prefix _).trans (List.takeWhile_prefix _)

end MDStudio

namespace MDStudio

/-! The claims. -/

/-- C1, counterexample: the href `file:///docs/guide.md` carries the `file:`
URI scheme in its path part, yet the HTML link rewriter classifies it as
`external` — the renderer's external test excludes only Windows drive paths,
not `file:` URIs, so the claim as stated is false. -/
theorem claim_C1_counterexample :
    (rewriteLinkHref (str "file:///docs/guide.md") sampleContext).kind =
      LinkKind.external := by decide

/-- C1, amended: every link href whose path part carries the `file:` URI
scheme IS classified `external` by the HTML link rewriter: for
`data-link-kind` purposes, `external` covers all URI-scheme-like hrefs that
are not Windows drive paths, `file:` URIs included. -/
theorem claim_C1_amended (ctx : RenderContext) (rest : Str) :
    rewriteLinkHref ('f' :: 'i' :: 'l' :: 'e' :: ':' :: rest) ctx =
      ⟨'f' :: 'i' :: 'l' :: 'e' :: ':' :: rest, LinkKind.external⟩ := by
  apply rewriteLinkHref_external
  rw [splitHref_pathPart_cons (by decide) (by decide),
    splitHref_pathPart_cons (by decide) (by decide),
    splitHref_pathPart_cons (by decide) (by decide),
    splitHref_pathPart_cons (by decide) (by decide),
    splitHref_pathPart_cons (by decide) (by decide)]
  exact isExternalHref_file_prefix _

/-- C2: an href whose path part matches the generic URI-scheme prefix and is
not a Windows drive path is classified `external`; an href of absolute
Windows drive-path shape (`X:\...` or `X:/...`, single letter, either case)
is never classified `external`. -/
theorem claim_C2 :
    (∀ (ctx : RenderContext) (href : Str),
      hasUriScheme (splitHref href).pathPart = true →
      isLikelyWindowsAbsolutePath (splitHref href).pathPart = false →
      (rewriteLinkHref href ctx).kind = LinkKind.external) ∧
    (∀ (ctx : RenderContext) (c sep : Char) (rest : Str),
      isAsciiLetter c = true → sep = '/' ∨ sep = '\\' →
      (rewriteLinkHref (c :: ':' :: sep :: rest) ctx).kind ≠ LinkKind.external) := by
  constructor
  · intro ctx href h1 h2
    rw [rewriteLinkHref_external (isExternalHref_of_scheme h1 h2)]
  · intro ctx c sep rest hc hsep
    apply rewriteLinkHref_not_external
    apply isExternalHref_of_winAbs
    have hpp : (splitHref (c :: ':' :: sep :: rest)).pathPart =
        c :: ':' :: sep :: (splitHref rest).pathPart := by
      rw [splitHref_pathPart_cons (isAsciiLetter_bne hc (by decide))
          (isAsciiLetter_bne hc (by decide)),
        splitHref_pathPart_cons (by decide) (by decide)]
      rcases hsep with h | h <;> subst h <;>
        rw [splitHref_pathPart_cons (by decide) (by decide)]
    rw [hpp]
    show (isAsciiLetter c && (':' == ':') && (sep == '/' || sep == '\\')) = true
    rcases hsep with h | h <;> subst h <;> simp [hc]

/-- C2, witness: `ftp://host/file.md` is classified `external`, while the
drive path `C:/docs/a.md` is not. -/
theorem claim_C2_witness :
    (rewriteLinkHref (str "ftp://host/file.md") sampleContext).kind =
      LinkKind.external ∧
    (rewriteLinkHref (str "C:/docs/a.md") sampleContext).kind ≠
      LinkKind.external := by
  constructor
  · exact claim_C2.1 sampleContext (str "ftp://host/file.md") (by decide) (by decide)
  · exact claim_C2.2 sampleContext 'C' '/' (str "docs/a.md") (by decide) (Or.inl rfl)

/-- C10: a drive-relative href `X:name` — an ASCII letter, a colon, and a
next character that is neither `/` nor `\` — passes the URI-scheme test but
not the drive-path exclusion, so it is classified `external` and stamped
`data-link-kind="external"` with `target="_blank"`. -/
theorem claim_C10 (ctx : RenderContext) (c d : Char) (rest : Str)
    (hc : isAsciiLetter c = true) (hd1 : d ≠ '/') (hd2 : d ≠ '\\') :
    (rewriteLinkHref (c :: ':' :: d :: rest) ctx).kind = LinkKind.external ∧
    (str "data-link-kind", str "external") ∈
      linkOpenAttrs (c :: ':' :: d :: rest) ctx ∧
    (str "target", str "_blank") ∈ linkOpenAttrs (c :: ':' :: d :: rest) ctx := by
  have hext : isExternalHref ((splitHref (c :: ':' :: d :: rest)).pathPart) = true := by
    rw [splitHref_pathPart_cons (isAsciiLetter_bne hc (by decide))
        (isAsciiLetter_bne hc (by decide)),
      splitHref_pathPart_cons (by decide) (by decide)]
    apply isExternalHref_of_scheme (hasUriScheme_letter_colon hc _)
    cases hX : (splitHref (d :: rest)).pathPart with
    | nil => rfl
    | cons e tail2 =>
      have hpre : e :: tail2 <+: d :: rest := by
        rw [← hX]; exact splitHref_pathPart_prefix (d :: rest)
      obtain ⟨t, ht⟩ := hpre
      have he : e = d := by
        have := ht
        simp at this
        exact this.1
      subst he
      show (isAsciiLetter c && (':' == ':') && (e == '/' || e == '\\')) = false
      have h1 : (e == '/') = false := by simp [hd1]
      have h2 : (e == '\\') = false := by simp [hd2]
      simp [h1, h2]
  have hrw := @rewriteLinkHref_external _ ctx hext
  refine ⟨by rw [hrw], ?_, ?_⟩ <;> simp [linkOpenAttrs, hrw, linkKindAttr]

/-- C10, witness: the drive-relative href `C:name` is classified `external`
and stamped `data-link-kind="external"`, `target="_blank"`. -/
theorem claim_C10_witness :
    (rewriteLinkHref (str "C:name") sampleContext).kind = LinkKind.external ∧
    (str "data-link-kind", str "external") ∈
      linkOpenAttrs (str "C:name") sampleContext ∧
    (str "target", str "_blank") ∈ linkOpenAttrs (str "C:name") sampleContext :=
  claim_C10 sampleContext 'C' 'n' (str "ame") (by decide) (by decide) (by decide)

/-- The reassembly described by the spec: path part, then `?`+query when the
query is non-empty, then `#`+fragment when the fragment is non-empty.
Modelled from the claim's words, for comparison with `splitHref`. -/
def reassembleHref (parts : HrefParts) : Str :=
  parts.pathPart ++ (if parts.query = [] then [] else '?' :: parts.query) ++
    (if parts.fragment = [] then [] else '#' :: parts.fragment)

/-- C3, counterexample: the href `docs?` splits into path part `docs`, empty
query and empty fragment, and reassembles to `docs` — the trailing `?` is
lost, so split-then-reassemble is not the identity on every href. -/
theorem claim_C3_counterexample :
    reassembleHref (splitHref (str "docs?")) ≠ str "docs?" := by decide

/-- C3, amended: split-then-reassemble is the identity for every href that
has no dangling separator — whenever a present `#` is followed by a
non-empty fragment and a present `?` (before any `#`) is followed by a
non-empty query.  (An href such as `docs?` or `a?#b` drops the empty-side
separator.) -/
theorem claim_C3_amended (href : Str)
    (hfrag : '#' ∈ href → (splitHref href).fragment ≠ [])
    (hquery : '?' ∈ href.takeWhile (fun a => a != '#') → (splitHref href).query ≠ []) :
    reassembleHref (splitHref href) = href := by
  cases hb : breakAt '#' href with
  | none =>
    cases hq : breakAt '?' href with
    | none => simp [reassembleHref, splitHref, hb, hq]
    | some q =>
      have hmem : '?' ∈ href.takeWhile (fun a => a != '#') := by
        rw [breakAt_none_fst hb, breakAt_eq_some hq]
        simp
      have hq2 : (splitHref href).query ≠ [] := hquery hmem
      rw [splitHref] at hq2
      rw [hb, hq] at hq2
      simp at hq2
      simp [reassembleHref, splitHref, hb, hq, hq2]
      rw [← breakAt_eq_some hq]
  | some p =>
    have hmem : '#' ∈ href := by rw [breakAt_eq_some hb]; simp
    have hf : (splitHref href).fragment ≠ [] := hfrag hmem
    rw [splitHref] at hf
    simp only [hb] at hf
    cases hq : breakAt '?' p.1 with
    | none =>
      rw [hq] at hf
      simp at hf
      simp [reassembleHref, splitHref, hb, hq, hf]
      rw [← breakAt_eq_some hb]
    | some q =>
      rw [hq] at hf
      simp at hf
      have hmemq : '?' ∈ href.takeWhile (fun a => a != '#') := by
        rw [← breakAt_some_fst hb, breakAt_eq_some hq]
        simp
      have hq2 : (splitHref href).query ≠ [] := hquery hmemq
      rw [splitHref] at hq2
      simp only [hb] at hq2
      rw [hq] at hq2
      simp at hq2
      simp [reassembleHref, splitHref, hb, hq, hq2, hf]
      simp [breakAt_eq_some hb, breakAt_eq_some hq]

/-- C3, witness: the amended round-trip at `a.md?x=1#top`. -/
theorem claim_C3_witness :
    reassembleHref (splitHref (str "a.md?x=1#top")) = str "a.md?x=1#top" :=
  claim_C3_amended (str "a.md?x=1#top") (fun _ => by decide) (fun _ => by decide)

/-- C4, counterexample: on POSIX the `/`-leading path `/guide.md` is caught
by the absolute-path test first, so with a known workspace root `/workspace`
it resolves to `/guide.md` itself and not to the claimed workspace join
`/workspace/guide.md`; and with no workspace root known it still resolves
instead of failing. -/
theorem claim_C4_counterexample :
    resolveLocalFileUri (str "/guide.md") sampleContext =
      some (Uri.file (str "/guide.md")) ∧
    Uri.file (str "/guide.md") ≠
      Uri.file (pathJoin (str "/workspace") (str "guide.md")) ∧
    resolveLocalFileUri (str "/guide.md") noRootContext =
      some (Uri.file (str "/guide.md")) := by decide

/-- C4, amended: on the POSIX build of Node `path`, a `/`-leading path part
is absolute and is returned directly (never workspace-joined, never failing);
only a `\`-leading path part takes the workspace branch, where all leading
separators are stripped and the rest is joined to the owning workspace root
(else the first root), failing exactly when no root is known; and on any
resolution failure both rewriters leave the authored href/src unchanged, the
link rewriter with kind `asset` whenever it reached resolution. -/
theorem claim_C4_amended :
    (∀ (ctx : RenderContext) (href : Str),
      (splitHref href).pathPart.head? = some '/' →
      resolveLocalFileUri href ctx =
        some ((Uri.file (splitHref href).pathPart).withQueryFragment
          (splitHref href).query (splitHref href).fragment)) ∧
    (∀ (ctx : RenderContext) (href : Str),
      (splitHref href).pathPart.head? = some '\\' →
      resolveLocalFileUri href ctx =
        (effectiveWorkspaceRoot ctx).map (fun root =>
          (Uri.file (pathJoin root (stripLeadingSeps (splitHref href).pathPart))).withQueryFragment
            (splitHref href).query (splitHref href).fragment)) ∧
    (∀ (ctx : RenderContext) (href : Str),
      resolveLocalFileUri href ctx = none →
      (rewriteLinkHref href ctx).href = href ∧
      rewriteImageSource href ctx = href ∧
      (href.head? ≠ some '#' →
        isExternalHref (splitHref href).pathPart = false →
        isMarkdownPath (splitHref href).pathPart = false →
        rewriteLinkHref href ctx = ⟨href, LinkKind.asset⟩)) := by
  refine ⟨?_, ?_, ?_⟩
  · intro ctx href h
    obtain ⟨t, hpp⟩ : ∃ t, (splitHref href).pathPart = '/' :: t := by
      cases hx : (splitHref href).pathPart with
      | nil => rw [hx] at h; simp at h
      | cons a s =>
        rw [hx] at h
        simp at h
        subst h
        exact ⟨s, rfl⟩
    have hne : (splitHref href).pathPart ≠ [] := by rw [hpp]; simp
    have habs : path_isAbsolute (splitHref href).pathPart = true := by
      rw [hpp]; rfl
    simp [resolveLocalFileUri, hne, habs]
  · intro ctx href h
    obtain ⟨t, hpp⟩ : ∃ t, (splitHref href).pathPart = '\\' :: t := by
      cases hx : (splitHref href).pathPart with
      | nil => rw [hx] at h; simp at h
      | cons a s =>
        rw [hx] at h
        simp at h
        subst h
        exact ⟨s, rfl⟩
    have hne : (splitHref href).pathPart ≠ [] := by rw [hpp]; simp
    have habs : path_isAbsolute (splitHref href).pathPart = false := by
      rw [hpp]; rfl
    have hext : isExternalHref (splitHref href).pathPart = false := by
      rw [hpp]
      have hw : hasUriScheme ('\\' :: t) = false := by
        show (isAsciiLetter '\\' && schemeTail t) = false
        have : isAsciiLetter '\\' = false := by decide
        simp [this]
      unfold isExternalHref
      by_cases hwin : isLikelyWindowsAbsolutePath ('\\' :: t) = true
      · simp [hwin]
      · simp only [Bool.not_eq_true] at hwin
        simp [hwin, hw]
    have hsep : (splitHref href).pathPart.head? = some '/' ∨
        (splitHref href).pathPart.head? = some '\\' := Or.inr h
    rw [hpp] at habs hext
    simp only [resolveLocalFileUri, if_neg hne, hext, h, hpp]
    cases hroot : effectiveWorkspaceRoot ctx <;> simp [hroot, habs, hext]
  · intro ctx href hres
    have hl : ∀ h0 : ¬href = [], ∀ h1 : ¬href.head? = some '#',
        rewriteLinkHref href ctx = ⟨href, LinkKind.asset⟩ ∨
        rewriteLinkHref href ctx = ⟨href, LinkKind.external⟩ ∨
        rewriteLinkHref href ctx = ⟨href, LinkKind.markdown⟩ := by
      intro h0 h1
      by_cases h2 : (splitHref href).pathPart = []
      · exact Or.inl (by simp [rewriteLinkHref, h0, h1, h2])
      by_cases h3 : isExternalHref (splitHref href).pathPart = true
      · exact Or.inr (Or.inl (by simp [rewriteLinkHref, h0, h1, h2, h3]))
      rw [Bool.not_eq_true] at h3
      by_cases h4 : isMarkdownPath (splitHref href).pathPart = true
      · exact Or.inr (Or.inr (by simp [rewriteLinkHref, h0, h1, h2, h3, h4]))
      rw [Bool.not_eq_true] at h4
      exact Or.inl (by simp [rewriteLinkHref, h0, h1, h2, h3, h4, hres])
    refine ⟨?_, ?_, ?_⟩
    · by_cases h0 : href = []
      · simp [rewriteLinkHref, h0]
      by_cases h1 : href.head? = some '#'
      · simp [rewriteLinkHref, h0, h1]
      rcases hl h0 h1 with h | h | h <;> rw [h]
    · by_cases h0 : href = []
      · simp [rewriteImageSource, h0]
      by_cases h2 : (splitHref href).pathPart = []
      · simp [rewriteImageSource, h0, h2]
      by_cases hdata : isDataUri (splitHref href).pathPart = true
      · simp [rewriteImageSource, h0, h2, hdata]
      rw [Bool.not_eq_true] at hdata
      by_cases h3 : isExternalHref (splitHref href).pathPart = true
      · simp [rewriteImageSource, h0, h2, hdata, h3]
      rw [Bool.not_eq_true] at h3
      simp [rewriteImageSource, h0, h2, hdata, h3, hres]
    · intro h1 h3 h4
      by_cases h0 : href = []
      · simp [rewriteLinkHref, h0]
      by_cases h2 : (splitHref href).pathPart = []
      · simp [rewriteLinkHref, h0, h1, h2]
      simp [rewriteLinkHref, h0, h1, h2, h3, h4, hres]

/-- C4, witness: the amended statements at `/a?q#f` (absolute, returned
directly), `\docs\a.md` (workspace-joined with root `/workspace`, failing
without a root), and the failing `\x` in a rootless workspace (link and
image rewriters keep the authored text, kind `asset`). -/
theorem claim_C4_witness :
    resolveLocalFileUri (str "/a?q#f") sampleContext =
      some ((Uri.file (str "/a")).withQueryFragment (str "q") (str "f")) ∧
    resolveLocalFileUri (str "\\docs\\a.md") sampleContext =
      (effectiveWorkspaceRoot sampleContext).map (fun root =>
        (Uri.file (pathJoin root (stripLeadingSeps (str "\\docs\\a.md")))).withQueryFragment
          [] []) ∧
    resolveLocalFileUri (str "\\x") noRootContext = none ∧
    (rewriteLinkHref (str "\\x") noRootContext).href = str "\\x" ∧
    rewriteImageSource (str "\\x") noRootContext = str "\\x" ∧
    rewriteLinkHref (str "\\x") noRootContext = ⟨str "\\x", LinkKind.asset⟩ := by
  have hres : resolveLocalFileUri (str "\\x") noRootContext = none := by decide
  have h3 := claim_C4_amended.2.2 noRootContext (str "\\x") hres
  exact ⟨claim_C4_amended.1 sampleContext (str "/a?q#f") (by decide),
    claim_C4_amended.2.1 sampleContext (str "\\docs\\a.md") (by decide),
    hres, h3.1, h3.2.1, h3.2.2 (by decide) (by decide) (by decide)⟩

/-- C5: a local (non-hash, non-external) href whose path part has a markdown
extension is classified `markdown` and emitted verbatim: the anchor carries
`data-link-kind="markdown"`, `target="_self"`, and an `href` attribute equal
to the authored text. -/
theorem claim_C5 (ctx : RenderContext) (href : Str)
    (hext : isExternalHref (splitHref href).pathPart = false)
    (hmd : isMarkdownPath (splitHref href).pathPart = true) :
    rewriteLinkHref href ctx = ⟨href, LinkKind.markdown⟩ ∧
    linkOpenAttrs href ctx =
      [(str "href", href),
       (str "data-original-href", href),
       (str "data-source-doc", ctx.docUriString),
       (str "data-link-kind", str "markdown"),
       (str "target", str "_self"),
       (str "rel", str "noopener noreferrer")] := by
  have hrw := @rewriteLinkHref_markdown _ ctx hext hmd
  exact ⟨hrw, by simp [linkOpenAttrs, hrw, linkKindAttr]⟩

/-- C5, witness: the scenario input `./guide.md#intro`. -/
theorem claim_C5_witness :
    rewriteLinkHref (str "./guide.md#intro") sampleContext =
      ⟨str "./guide.md#intro", LinkKind.markdown⟩ ∧
    linkOpenAttrs (str "./guide.md#intro") sampleContext =
      [(str "href", str "./guide.md#intro"),
       (str "data-original-href", str "./guide.md#intro"),
       (str "data-source-doc", sampleContext.docUriString),
       (str "data-link-kind", str "markdown"),
       (str "target", str "_self"),
       (str "rel", str "noopener noreferrer")] :=
  claim_C5 sampleContext (str "./guide.md#intro") (by decide) (by decide)

/-- C6: every rendered anchor carries `href`, `data-original-href` (the
authored href), `data-source-doc` (the rendering document's address) and a
`data-link-kind` drawn from the four kinds; `target` is `_blank` exactly for
`external` and `_self` otherwise; `rel="noopener noreferrer"` always. -/
theorem claim_C6 (ctx : RenderContext) (href : Str) :
    ∃ rewrittenHref kindValue targetValue,
      linkOpenAttrs href ctx =
        [(str "href", rewrittenHref),
         (str "data-original-href", href),
         (str "data-source-doc", ctx.docUriString),
         (str "data-link-kind", kindValue),
         (str "target", targetValue),
         (str "rel", str "noopener noreferrer")] ∧
      kindValue ∈ [str "hash", str "external", str "markdown", str "asset"] ∧
      ((targetValue = str "_blank") ↔ (rewriteLinkHref href ctx).kind = LinkKind.external) ∧
      ((targetValue = str "_self") ↔ (rewriteLinkHref href ctx).kind ≠ LinkKind.external) := by
  refine ⟨(rewriteLinkHref href ctx).href, linkKindAttr (rewriteLinkHref href ctx).kind,
    (if (rewriteLinkHref href ctx).kind = LinkKind.external then str "_blank"
     else str "_self"), rfl, ?_, ?_, ?_⟩
  · cases (rewriteLinkHref href ctx).kind <;> simp [linkKindAttr, str]
  · cases h : (rewriteLinkHref href ctx).kind <;> simp [h] <;> decide
  · cases h : (rewriteLinkHref href ctx).kind <;> simp [h] <;> decide

/-- C7: the readiness handshake.  At most one payload is ever pending (the
state carries a single optional slot, and a render before readiness
overwrites it without touching the delivered sequence); the first readiness
signal delivers exactly the pending payload; readiness, once set, survives
every event; once ready, renders are delivered immediately; and the spec's
scenario — two renders before readiness, then the ready signal — delivers
exactly one payload, the most recent. -/
theorem claim_C7 :
    (∀ (s : SessionState) (payload : RenderPayload), s.isReady = false →
      sessionStep s (SessionEvent.renderCompleted payload) =
        { s with pendingRenderPayload := some payload }) ∧
    (∀ (s : SessionState) (payload : RenderPayload), s.isReady = false →
      s.pendingRenderPayload = some payload →
      sessionStep s SessionEvent.readyMessage =
        { s with isReady := true, pendingRenderPayload := none,
                 posted := s.posted ++ [payload] }) ∧
    (∀ (s : SessionState) (e : SessionEvent), s.isReady = true →
      (sessionStep s e).isReady = true) ∧
    (∀ (s : SessionState) (payload : RenderPayload), s.isReady = true →
      sessionStep s (SessionEvent.renderCompleted payload) =
        { s with posted := s.posted ++ [payload] }) ∧
    (∀ p1 p2 : RenderPayload,
      sessionRun initialSessionState
        [SessionEvent.renderCompleted p1, SessionEvent.renderCompleted p2,
         SessionEvent.readyMessage] =
        { isReady := true, pendingRenderPayload := none, posted := [p2] }) := by
  refine ⟨?_, ?_, ?_, ?_, ?_⟩
  · intro s payload h
    simp [sessionStep, postRenderPayload, h]
  · intro s payload _h hp
    simp [sessionStep, hp]
  · intro s e h
    cases e with
    | renderCompleted payload => simp [sessionStep, postRenderPayload, h]
    | readyMessage => cases hp : s.pendingRenderPayload <;> simp [sessionStep, hp]
    | openLinkMessage a b => simpa [sessionStep] using h
  · intro s payload h
    simp [sessionStep, postRenderPayload, h]
  · intro p1 p2
    simp [sessionRun, sessionStep, postRenderPayload, initialSessionState]

/-- C7, witness: each handshake statement at concrete states and payloads. -/
theorem claim_C7_witness :
    sessionStep ⟨false, some ⟨str "a", false, str "t"⟩, []⟩
        (SessionEvent.renderCompleted ⟨str "b", false, str "t"⟩) =
      ⟨false, some ⟨str "b", false, str "t"⟩, []⟩ ∧
    sessionStep ⟨false, some ⟨str "b", false, str "t"⟩, []⟩ SessionEvent.readyMessage =
      ⟨true, none, [⟨str "b", false, str "t"⟩]⟩ ∧
    (sessionStep ⟨true, none, []⟩ SessionEvent.readyMessage).isReady = true ∧
    sessionStep ⟨true, none, []⟩ (SessionEvent.renderCompleted ⟨str "c", false, str "t"⟩) =
      ⟨true, none, [⟨str "c", false, str "t"⟩]⟩ ∧
    sessionRun initialSessionState
      [SessionEvent.renderCompleted ⟨str "a", false, str "t"⟩,
       SessionEvent.renderCompleted ⟨str "b", false, str "t"⟩,
       SessionEvent.readyMessage] =
      ⟨true, none, [⟨str "b", false, str "t"⟩]⟩ :=
  ⟨claim_C7.1 _ _ rfl, claim_C7.2.1 _ _ rfl rfl, claim_C7.2.2.1 _ _ rfl,
   claim_C7.2.2.2.1 _ _ rfl, claim_C7.2.2.2.2 _ _⟩

/-- C8: with diagrams enabled, a fence whose declared language case-folds to
`mermaid` renders as the diagram-marking `div.mermaid` container holding the
HTML-escaped raw source; with diagrams disabled, the same fence renders
through the stock rule as the generic `pre.code-block`/`code.hljs` container
(the highlighter registers no `mermaid` grammar). -/
theorem claim_C8 :
    (∀ (ctx : RenderContext) (hl : HighlightJs) (content info : Str),
      ctx.settings.enableMermaid = true → getFenceLanguage info = str "mermaid" →
      fenceRule ctx hl content info =
        str "<div class=\"mermaid\">" ++ escapeHtml content ++ str "</div>") ∧
    (∀ (ctx : RenderContext) (hl : HighlightJs) (content info : Str),
      ctx.settings.enableMermaid = false → hl.getLanguage (str "mermaid") = false →
      getFenceLanguage info = str "mermaid" →
      fenceRule ctx hl content info =
        str "<pre class=\"code-block\"><code class=\"hljs\">" ++ escapeHtml content ++
          str "</code></pre>" ++ str "\n") := by
  constructor
  · intro ctx hl content info h1 h2
    simp [fenceRule, h1, h2]
  · intro ctx hl content info h1 h2 h3
    have hnorm : toLower (firstWord (jsTrim (firstWord (jsTrim info)))) = str "mermaid" := by
      rw [firstWord_jsTrim_idem]; exact h3
    have hnn : (str "mermaid" : Str) ≠ [] := by decide
    simp [fenceRule, defaultFenceRule, renderCodeBlock, h1, h2, h3, hnorm, hnn]

/-- C8, witness: the spec's scenario fence `graph TD; A-->B;` with diagrams
enabled and disabled: the enabled output is the diagram container and holds
the literal text `graph TD;`; the disabled output is the generic code
container with no diagram-marking class. -/
theorem claim_C8_witness :
    fenceRule sampleContext emptyHighlightJs (str "graph TD;\nA-->B;\n") (str "mermaid") =
      str "<div class=\"mermaid\">" ++ escapeHtml (str "graph TD;\nA-->B;\n") ++
        str "</div>" ∧
    containsSub (str "graph TD;")
      (fenceRule sampleContext emptyHighlightJs (str "graph TD;\nA-->B;\n")
        (str "mermaid")) = true ∧
    fenceRule noMermaidContext emptyHighlightJs (str "graph TD;\nA-->B;\n") (str "mermaid") =
      str "<pre class=\"code-block\"><code class=\"hljs\">" ++
        escapeHtml (str "graph TD;\nA-->B;\n") ++ str "</code></pre>" ++ str "\n" ∧
    containsSub (str "class=\"mermaid\"")
      (fenceRule noMermaidContext emptyHighlightJs (str "graph TD;\nA-->B;\n")
        (str "mermaid")) = false :=
  ⟨claim_C8.1 sampleContext emptyHighlightJs _ _ rfl (by decide), by decide,
   claim_C8.2 noMermaidContext emptyHighlightJs _ _ rfl rfl (by decide), by decide⟩

/-- C9: a fence whose language is absent or unregistered with the
highlighter renders as HTML-escaped plain text inside the generic code
container; the escaping is exactly the per-character entity table for
`&`, `<`, `>`, `"`, `'` (every other character passes through); no raw `<`
survives escaping; and on the scenario input — language `unknown`, body
`<script>alert('xss')</script>` — no literal `<script>` substring occurs
anywhere in the rendered output. -/
theorem claim_C9 :
    (∀ (hl : HighlightJs) (code language : Str),
      toLower (firstWord (jsTrim language)) = [] ∨
        hl.getLanguage (toLower (firstWord (jsTrim language))) = false →
      renderCodeBlock hl code language =
        str "<pre class=\"code-block\"><code class=\"hljs\">" ++ escapeHtml code ++
          str "</code></pre>") ∧
    (∀ code : Str, escapeHtml code = code.flatMap escapeHtmlChar) ∧
    (∀ code : Str, '<' ∉ escapeHtml code) ∧
    (∀ hl : HighlightJs, hl.getLanguage (str "unknown") = false →
      containsSub (str "<script>")
        (renderCodeBlock hl (str "<script>alert(\x27xss\x27)</script>")
          (str "unknown")) = false) := by
  have hgen : ∀ (hl : HighlightJs) (code language : Str),
      toLower (firstWord (jsTrim language)) = [] ∨
        hl.getLanguage (toLower (firstWord (jsTrim language))) = false →
      renderCodeBlock hl code language =
        str "<pre class=\"code-block\"><code class=\"hljs\">" ++ escapeHtml code ++
          str "</code></pre>" := by
    intro hl code language h
    rcases h with h | h
    · simp [renderCodeBlock, h]
    · simp [renderCodeBlock, h]
  refine ⟨hgen, escapeHtml_eq_flatMap, escapeHtml_no_lt, ?_⟩
  intro hl h
  have hu : toLower (firstWord (jsTrim (str "unknown"))) = str "unknown" := by decide
  have heq := hgen hl (str "<script>alert(\x27xss\x27)</script>") (str "unknown")
    (Or.inr (by rw [hu]; exact h))
  rw [heq]
  decide

/-- C9, witness: the scenario input under a highlighter registering no
grammars. -/
theorem claim_C9_witness :
    renderCodeBlock emptyHighlightJs (str "<script>alert(\x27xss\x27)</script>")
        (str "unknown") =
      str "<pre class=\"code-block\"><code class=\"hljs\">" ++
        escapeHtml (str "<script>alert(\x27xss\x27)</script>") ++ str "</code></pre>" ∧
    escapeHtml (str "<p id=\x27a\x27>") = (str "<p id=\x27a\x27>").flatMap escapeHtmlChar ∧
    '<' ∉ escapeHtml (str "<script>") ∧
    containsSub (str "<script>")
      (renderCodeBlock emptyHighlightJs (str "<script>alert(\x27xss\x27)</script>")
        (str "unknown")) = false :=
  ⟨claim_C9.1 emptyHighlightJs _ _ (Or.inr rfl), claim_C9.2.1 _, claim_C9.2.2.1 _,
   claim_C9.2.2.2 emptyHighlightJs rfl⟩

end MDStudio

namespace MDStudio

/-! Sanity checks of the embedded primitives on concrete inputs. -/

example : splitHref (str "a/b.md?x=1#top") =
    ⟨str "a/b.md", str "x=1", str "top"⟩ := by decide

example : isExternalHref (str "https://example.com") = true := by decide

example : isExternalHref (str "C:/docs/a.txt") = false := by decide

example : isExternalHref (str "C:name") = true := by decide

example : isExternalHref (str "./guide.md") = false := by decide

example : isExternalHref (str "file:///a/b.md") = true := by decide

example : extname (str "./guide.md") = str ".md" := by decide

example : extname (str "docs/.md") = [] := by decide

example : extname (str "a.") = str "." := by decide

example : extname (str "..") = [] := by decide

example : isMarkdownPath (str "./Guide.MD") = true := by decide

example : isMarkdownPath (str "./a.txt") = false := by decide

example : isDataUri (str "DATA:image/png") = true := by decide

example : firstWord (jsTrim (str "  mermaid extra ")) = str "mermaid" := by decide

end MDStudio
